import Mathlib

/-!
Verification of the geospatial CSV microservice (business search, IRIS zone
aggregation, criminality reducer, competitor-financials reducer).

The Go sources are shallowly embedded:
* `float64` values are modelled as rationals (`ℚ`); the claims under study
  concern algebraic structure (filters, folds, clamping, formulas), not
  IEEE-754 rounding.
* CSV cells are modelled by `Field`: the raw text together with the result
  of `strconv.ParseFloat` (`num`, `none` on parse error) and of
  `time.Parse` on ISO dates (`date`, days as an integer, `none` on error).
* Calls into the external geometry libraries (`go-geom`,
  `simplefeatures/geom`) are abstracted: `GeomOps` records the results the
  library returns for one polygon pair, and the point-in-polygon test of
  the business search is modelled from the spec (even-odd ray casting,
  points on an edge inside), since the geometry kernel itself is not part
  of this repository's sources.
-/

set_option maxRecDepth 16384

namespace CsvProc

/-- A geographic point; `x` is the longitude, `y` the latitude
(GeoJSON order: longitude first). -/
structure Pt where
  x : ℚ
  y : ℚ
deriving DecidableEq, Repr

/-- A CSV cell: its text plus the pre-computed results of the numeric and
date parsers the Go code applies to it (`strconv.ParseFloat`,
`time.Parse "2006-01-02"`). `none` models a parse error. -/
structure Field where
  text : String
  num : Option ℚ := none
  date : Option ℤ := none
deriving DecidableEq, Repr

/-- Out-of-range access yields the blank cell (the Go code indexes only
after its length guard; the sole unguarded index, column 20 of a
20-column business row, is noted at `loadBusinessesByNAF`). -/
def getF (record : List Field) (i : ℕ) : Field :=
  record.getD i ⟨"", none, none⟩

/-- `parseFloat` of csv_service.go: `strconv.ParseFloat` with the error
ignored, so a cell that fails to parse yields `0.0`. -/
def parseFloatF (f : Field) : ℚ :=
  f.num.getD 0

/-- `models.Business`. The business-CSV loader never fills `siret`; the
competition pipeline receives businesses with it set. -/
structure Business where
  name : String
  siret : String := ""
  nafCode : String
  latitude : ℚ
  longitude : ℚ
  address : String
deriving DecidableEq, Repr

/-- Address assembly of `loadBusinessesByNAF`: columns 12, 13, 17, 18, 19,
20 joined by single spaces; an empty column contributes nothing, but the
separator is emitted for every non-empty part at index > 0. -/
def buildAddress (record : List Field) : String :=
  let parts := [getF record 12, getF record 13, getF record 17,
                getF record 18, getF record 19, getF record 20].map (·.text)
  (parts.enum.foldl (fun acc ip =>
    if ip.2 ≠ "" then (if ip.1 > 0 then acc ++ " " else acc) ++ ip.2 else acc) "")

/-- One iteration of the row loop of `loadBusinessesByNAF`
(csv_service.go): skip rows shorter than 20 cells, rows whose NAF code
(column `len-5`) differs from the filter, rows with an empty name, and
rows whose longitude (column `len-2`) or latitude (column `len-1`) fails
`strconv.ParseFloat`. (A row of exactly 20 cells that survives these
guards makes the Go code panic at `record[20]`; `getF` instead reads a
blank cell there.) -/
def parseBusinessRow (nafCode : String) (record : List Field) : Option Business :=
  if record.length < 20 then none
  else
    let recordNAFCode := (getF record (record.length - 5)).text
    if recordNAFCode ≠ nafCode then none
    else if (getF record 0).text = "" then none
    else
      match (getF record (record.length - 2)).num with
      | none => none
      | some longitude =>
        match (getF record (record.length - 1)).num with
        | none => none
        | some latitude =>
          some { name := (getF record 0).text, nafCode := recordNAFCode,
                 latitude := latitude, longitude := longitude,
                 address := buildAddress record }

/-- `loadBusinessesByNAF`: stream the rows, keeping parsed businesses in
input order. -/
def loadBusinessesByNAF (rows : List (List Field)) (nafCode : String) : List Business :=
  rows.filterMap (parseBusinessRow nafCode)

/-- Modelled from the spec: the point-on-segment test of the geometry
kernel (the kernel lives in the external geometry libraries, not in this
repository): `p` lies on the closed segment `a`–`b`. -/
def onSegment (p a b : Pt) : Bool :=
  (b.x - a.x) * (p.y - a.y) - (b.y - a.y) * (p.x - a.x) == 0 &&
  min a.x b.x ≤ p.x && p.x ≤ max a.x b.x &&
  min a.y b.y ≤ p.y && p.y ≤ max a.y b.y

/-- Modelled from the spec: `pointInRing` of the geometry kernel (§4.1),
which is not part of this repository's sources — even-odd ray casting
with a cross-product edge test, counting upward edges, where a point
exactly on an edge is considered inside. Stands in for the external
library containment test used by `SpatialIndex.Query`. -/
def pointInRing (p : Pt) (ring : List Pt) : Bool :=
  let edges := ring.zip (ring.drop 1)
  if edges.any (fun ab => onSegment p ab.1 ab.2) then true
  else
    edges.foldl (fun inside ab =>
      let a := ab.1
      let b := ab.2
      -- crossing test `p.x < a.x + (p.y-a.y)/(b.y-a.y)*(b.x-a.x)`, cleared
      -- of the division (the comparison flips on downward edges)
      if a.y ≤ p.y && p.y < b.y then
        if (p.x - a.x) * (b.y - a.y) < (b.x - a.x) * (p.y - a.y) then !inside else inside
      else if b.y ≤ p.y && p.y < a.y then
        if (b.x - a.x) * (p.y - a.y) < (p.x - a.x) * (b.y - a.y) then !inside else inside
      else inside) false

/-- `SpatialIndex.Query`: keep each business whose point the query
geometry contains (the library `Contains` is modelled by the spec's
`pointInRing` against the query polygon's outer ring; the WKT round-trip
of the Go code is the identity on the coordinates). -/
def spatialIndexQuery (ring : List Pt) (businesses : List Business) : List Business :=
  businesses.filter (fun b => pointInRing ⟨b.longitude, b.latitude⟩ ring)

/-- `SearchBusinesses`: load businesses filtered by NAF code, then keep
those inside the query ring. -/
def searchBusinesses (ring : List Pt) (rows : List (List Field))
    (nafCode : String) : List Business :=
  spatialIndexQuery ring (loadBusinessesByNAF rows nafCode)

/-- The results the external geometry library returns for one
(request polygon, zone polygon) pair, in the order
`calculateIntersectionArea` consults them: `Intersects`, `Equals` and
`Contains` (already folded with their error flag: `true` means
`err == nil && value`), the area of `Intersection` (`none` models the
error case), and the zone polygon's own area. -/
structure GeomOps where
  intersects : Bool
  equalsOk : Bool
  containsOk : Bool
  interArea : Option ℚ
  irisArea : ℚ
deriving DecidableEq, Repr

/-- `calculateIntersectionArea` (csv_service.go): short-circuit on
disjointness, equality and containment; otherwise the true intersection
area, `0` if the library errors. -/
def calculateIntersectionArea (g : GeomOps) : ℚ :=
  if !g.intersects then 0
  else if g.equalsOk then g.irisArea
  else if g.containsOk then g.irisArea
  else g.interArea.getD 0

/-- `calculateIntersectionPercentage`: `100 × interArea / zoneArea`,
returning `0` for zero intersection, non-positive zone area, or a
percentage below `5`. -/
def calculateIntersectionPercentage (g : GeomOps) : ℚ :=
  let intersectionArea := calculateIntersectionArea g
  if intersectionArea = 0 then 0
  else if g.irisArea ≤ 0 then 0
  else
    let percentage := intersectionArea / g.irisArea * 100
    if percentage < 5 then 0
    else percentage

end CsvProc

namespace CsvProc

theorem parseBusinessRow_nafCode {code : String} {r : List Field} {b : Business}
    (h : parseBusinessRow code r = some b) : b.nafCode = code := by
  unfold parseBusinessRow at h
  repeat' split at h
  all_goals try simp_all
  obtain ⟨h1, rfl⟩ := h
  rfl

/-- Demo ring: the closed unit-ten square. -/
def demoRing : List Pt := [⟨0, 0⟩, ⟨10, 0⟩, ⟨10, 10⟩, ⟨0, 10⟩, ⟨0, 0⟩]

/-- A 21-cell business row: name in column 0, NAF code in column 16
(`len-5`), longitude 5 in column 19 (`len-2`), latitude 6 in column 20
(`len-1`). -/
def demoRow : List Field :=
  ((((List.replicate 21 (⟨"", none, none⟩ : Field)).set 0 ⟨"Cafe A", none, none⟩).set 16
      ⟨"56.30Z", none, none⟩).set 19 ⟨"5", some 5, none⟩).set 20 ⟨"6", some 6, none⟩

/-- The business `demoRow` parses to. -/
def demoBusiness : Business :=
  { name := "Cafe A", nafCode := "56.30Z", latitude := 6, longitude := 5,
    address := " 5 6" }

/-- C1: every business returned by the search has the requested activity
code and its point lies inside the query polygon's outer ring, with
points on an edge counted inside (the library containment test is
modelled by the spec's `pointInRing`). -/
theorem c1_search_sound (ring : List Pt) (rows : List (List Field))
    (nafCode : String) (b : Business)
    (hb : b ∈ searchBusinesses ring rows nafCode) :
    b.nafCode = nafCode ∧ pointInRing ⟨b.longitude, b.latitude⟩ ring = true := by
  unfold searchBusinesses spatialIndexQuery at hb
  have h1 := List.of_mem_filter hb
  have h2 := List.mem_of_mem_filter hb
  unfold loadBusinessesByNAF at h2
  obtain ⟨r, _, hr⟩ := List.mem_filterMap.mp h2
  exact ⟨parseBusinessRow_nafCode hr, h1⟩

theorem c1_search_sound_witness :
    (demoBusiness ∈ searchBusinesses demoRing [demoRow] "56.30Z") ∧
    (demoBusiness.nafCode = "56.30Z" ∧
      pointInRing ⟨demoBusiness.longitude, demoBusiness.latitude⟩ demoRing = true) :=
  ⟨by with_unfolding_all decide,
   c1_search_sound demoRing [demoRow] "56.30Z" demoBusiness (by with_unfolding_all decide)⟩

/-- C2: the intersection percentage lies in `[0, 100]` (the upper bound
under the geometric contract that the intersection area is at most the
zone's area), and any raw percentage strictly below 5 is clamped to 0. -/
theorem c2_intersection_percentage (g : GeomOps)
    (h : calculateIntersectionArea g ≤ g.irisArea) :
    0 ≤ calculateIntersectionPercentage g ∧
    calculateIntersectionPercentage g ≤ 100 ∧
    (calculateIntersectionArea g / g.irisArea * 100 < 5 →
      calculateIntersectionPercentage g = 0) := by
  unfold calculateIntersectionPercentage
  by_cases ha : calculateIntersectionArea g = 0
  · simp [ha]
  · by_cases hA : g.irisArea ≤ 0
    · simp [ha, hA]
    · push_neg at hA
      by_cases hp : calculateIntersectionArea g / g.irisArea * 100 < 5
      · simp [ha, not_le.mpr hA, hp]
      · simp only [if_neg ha, if_neg (not_le.mpr hA), if_neg hp]
        push_neg at hp
        refine ⟨le_trans (by norm_num) hp, ?_, fun hc => absurd hc (not_lt.mpr hp)⟩
        calc calculateIntersectionArea g / g.irisArea * 100
            ≤ 1 * 100 := by
              have := (div_le_one hA).mpr h
              nlinarith
          _ = 100 := one_mul 100

theorem c2_intersection_percentage_witness :
    (calculateIntersectionArea ⟨true, false, false, some 2, 10⟩ ≤ (10 : ℚ)) ∧
    (0 ≤ calculateIntersectionPercentage ⟨true, false, false, some 2, 10⟩ ∧
     calculateIntersectionPercentage ⟨true, false, false, some 2, 10⟩ ≤ 100 ∧
     (calculateIntersectionArea ⟨true, false, false, some 2, 10⟩ / (10 : ℚ) * 100 < 5 →
       calculateIntersectionPercentage ⟨true, false, false, some 2, 10⟩ = 0)) :=
  ⟨by with_unfolding_all decide,
   c2_intersection_percentage ⟨true, false, false, some 2, 10⟩ (by with_unfolding_all decide)⟩

end CsvProc

namespace CsvProc

/-- The maximum-distance scan of `simplifyPolygon` (handlers.go):
one step of the loop over interior indices, keeping the strictly larger
distance. `dist p s e` abstracts `perpendicularDistance` (its value uses
a square root, which the claims never inspect). -/
def rdpStep (dist : Pt → Pt → Pt → ℚ) (points : List Pt) (acc : ℚ × ℕ) (i : ℕ) : ℚ × ℕ :=
  let d := dist (points.getD i ⟨0, 0⟩) (points.headD ⟨0, 0⟩) (points.getLastD ⟨0, 0⟩)
  if d > acc.1 then (d, i) else acc

/-- `(maxDistance, maxIndex)` over `i = 1 .. len-2`, starting from
`(0, 0)` as in the Go code. -/
def rdpMax (dist : Pt → Pt → Pt → ℚ) (points : List Pt) : ℚ × ℕ :=
  (List.range' 1 (points.length - 2)).foldl (rdpStep dist points) (0, 0)

/-- `simplifyPolygon` (handlers.go): recursive Ramer–Douglas–Peucker.
`fuel` bounds the recursion depth so the definition is total; the Go
recursion exhausts any fuel only in the corner `epsilon < 0` with all
interior distances `0`, where it does not terminate at all (the program
only calls it with the non-negative epsilon of
`calculatePolygonComplexity`). On exhausted fuel the input is returned. -/
def simplifyPolygonFuel (dist : Pt → Pt → Pt → ℚ) : ℕ → List Pt → ℚ → List Pt
  | 0, points, _ => points
  | fuel + 1, points, epsilon =>
    if points.length ≤ 2 then points
    else if (rdpMax dist points).1 > epsilon then
      (simplifyPolygonFuel dist fuel (points.take ((rdpMax dist points).2 + 1)) epsilon).dropLast ++
        simplifyPolygonFuel dist fuel (points.drop (rdpMax dist points).2) epsilon
    else
      [points.headD ⟨0, 0⟩, points.getLastD ⟨0, 0⟩]

/-- `simplifyPolygon` with enough fuel for every terminating Go run. -/
def simplifyPolygon (dist : Pt → Pt → Pt → ℚ) (points : List Pt) (epsilon : ℚ) : List Pt :=
  simplifyPolygonFuel dist points.length points epsilon

theorem rdpStep_snd_le {dist : Pt → Pt → Pt → ℚ} {points : List Pt} {acc : ℚ × ℕ}
    {i B : ℕ} (hacc : acc.2 ≤ B) (hi : i ≤ B) : (rdpStep dist points acc i).2 ≤ B := by
  unfold rdpStep
  dsimp only
  split
  · exact hi
  · exact hacc

theorem rdpMax_snd_le (dist : Pt → Pt → Pt → ℚ) (points : List Pt) :
    (rdpMax dist points).2 ≤ points.length - 2 := by
  unfold rdpMax
  have key : ∀ (l : List ℕ) (acc : ℚ × ℕ), acc.2 ≤ points.length - 2 →
      (∀ i ∈ l, i ≤ points.length - 2) →
      (l.foldl (rdpStep dist points) acc).2 ≤ points.length - 2 := by
    intro l
    induction l with
    | nil => intro acc hacc _; exact hacc
    | cons a t iht =>
      intro acc hacc hall
      simp only [List.foldl_cons]
      exact iht _ (rdpStep_snd_le hacc (hall a (by simp))) (fun i hi => hall i (by simp [hi]))
  refine key _ _ (by simp) (fun i hi => ?_)
  have := List.mem_range'_1.mp hi
  omega

theorem head?_eq_headD {l : List Pt} (h : l ≠ []) (d : Pt) : l.head? = some (l.headD d) := by
  cases l with
  | nil => exact absurd rfl h
  | cons a t => rfl

theorem getLast?_eq_getLastD {l : List Pt} (h : l ≠ []) (d : Pt) :
    l.getLast? = some (l.getLastD d) := by
  rw [List.getLastD_eq_getLast?]
  cases hx : l.getLast? with
  | none => exact absurd (List.getLast?_eq_none_iff.mp hx) h
  | some x => rfl

theorem head?_dropLast {l : List Pt} (h : 2 ≤ l.length) : l.dropLast.head? = l.head? := by
  match l, h with
  | a :: b :: t, _ => simp

theorem simplifyPolygonFuel_spec (dist : Pt → Pt → Pt → ℚ) :
    ∀ (fuel : ℕ) (points : List Pt) (epsilon : ℚ),
      min points.length 2 ≤ (simplifyPolygonFuel dist fuel points epsilon).length ∧
      (simplifyPolygonFuel dist fuel points epsilon).length ≤ points.length ∧
      (simplifyPolygonFuel dist fuel points epsilon).head? = points.head? ∧
      (simplifyPolygonFuel dist fuel points epsilon).getLast? = points.getLast? := by
  intro fuel
  induction fuel with
  | zero =>
    intro points epsilon
    exact ⟨Nat.min_le_left _ _, le_rfl, rfl, rfl⟩
  | succ fuel ih =>
    intro points epsilon
    by_cases hlen : points.length ≤ 2
    · have heq : simplifyPolygonFuel dist (fuel + 1) points epsilon = points := by
        simp only [simplifyPolygonFuel, if_pos hlen]
      rw [heq]
      exact ⟨Nat.min_le_left _ _, le_rfl, rfl, rfl⟩
    · have h3 : 3 ≤ points.length := by omega
      have hne : points ≠ [] := by
        intro hnil
        rw [hnil] at h3
        simp at h3
      have hm2 : (rdpMax dist points).2 ≤ points.length - 2 := rdpMax_snd_le dist points
      by_cases hgt : (rdpMax dist points).1 > epsilon
      · simp only [simplifyPolygonFuel, if_neg hlen, if_pos hgt]
        obtain ⟨ihf1, ihf2, ihf3, ihf4⟩ := ih (points.take ((rdpMax dist points).2 + 1)) epsilon
        obtain ⟨ihs1, ihs2, ihs3, ihs4⟩ := ih (points.drop (rdpMax dist points).2) epsilon
        have hlt : (rdpMax dist points).2 < points.length := by omega
        have hlen_take : (points.take ((rdpMax dist points).2 + 1)).length =
            (rdpMax dist points).2 + 1 := by
          rw [List.length_take]
          omega
        have hlen_drop : (points.drop (rdpMax dist points).2).length =
            points.length - (rdpMax dist points).2 := List.length_drop _ _
        have hsecond_head : (points.drop (rdpMax dist points).2).head? =
            some points[(rdpMax dist points).2] := by
          rw [List.head?_drop, List.getElem?_eq_getElem hlt]
        have hsecond_ne : simplifyPolygonFuel dist fuel
            (points.drop (rdpMax dist points).2) epsilon ≠ [] := by
          intro hnil
          rw [hnil, hsecond_head] at ihs3
          exact Option.noConfusion ihs3
        have hfirst_len1 : 1 ≤ (simplifyPolygonFuel dist fuel
            (points.take ((rdpMax dist points).2 + 1)) epsilon).length := by
          have : min ((rdpMax dist points).2 + 1) 2 ≥ 1 := by omega
          omega
        refine ⟨?_, ?_, ?_, ?_⟩
        · -- at least 2 points survive, via the second line
          have hs : 2 ≤ (simplifyPolygonFuel dist fuel
              (points.drop (rdpMax dist points).2) epsilon).length := by
            rw [hlen_drop] at ihs1
            omega
          rw [List.length_append, List.length_dropLast]
          omega
        · rw [List.length_append, List.length_dropLast]
          rw [hlen_take] at ihf2
          rw [hlen_drop] at ihs2
          omega
        · by_cases hz : (rdpMax dist points).2 = 0
          · -- first line collapses to one point; the second line is the whole list
            have hflen : (simplifyPolygonFuel dist fuel
                (points.take ((rdpMax dist points).2 + 1)) epsilon).length = 1 := by
              rw [hlen_take] at ihf2
              omega
            have hdl : (simplifyPolygonFuel dist fuel
                (points.take ((rdpMax dist points).2 + 1)) epsilon).dropLast = [] := by
              have := List.length_dropLast (simplifyPolygonFuel dist fuel
                (points.take ((rdpMax dist points).2 + 1)) epsilon)
              rw [hflen] at this
              exact List.length_eq_zero.mp this
            rw [hdl, List.nil_append, ihs3, hz, List.drop_zero]
          · -- the first line keeps at least two points, so its head survives dropLast
            have hf2 : 2 ≤ (simplifyPolygonFuel dist fuel
                (points.take ((rdpMax dist points).2 + 1)) epsilon).length := by
              rw [hlen_take] at ihf1
              omega
            have hdl_ne : (simplifyPolygonFuel dist fuel
                (points.take ((rdpMax dist points).2 + 1)) epsilon).dropLast ≠ [] := by
              intro hnil
              have := List.length_dropLast (simplifyPolygonFuel dist fuel
                (points.take ((rdpMax dist points).2 + 1)) epsilon)
              rw [hnil] at this
              simp at this
              omega
            rw [List.head?_append_of_ne_nil _ hdl_ne, head?_dropLast hf2, ihf3,
              List.head?_take]
            simp
        · rw [List.getLast?_append_of_ne_nil _ hsecond_ne, ihs4, List.getLast?_drop]
          rw [if_neg (by omega)]
      · simp only [simplifyPolygonFuel, if_neg hlen, if_neg hgt]
        refine ⟨?_, ?_, ?_, ?_⟩
        · simp only [List.length_cons, List.length_nil]
          omega
        · simp only [List.length_cons, List.length_nil]
          omega
        · rw [show ([points.headD ⟨0, 0⟩, points.getLastD ⟨0, 0⟩]).head? =
            some (points.headD ⟨0, 0⟩) from rfl, head?_eq_headD hne]
        · rw [show ([points.headD ⟨0, 0⟩, points.getLastD ⟨0, 0⟩]).getLast? =
            some (points.getLastD ⟨0, 0⟩) from rfl, getLast?_eq_getLastD hne]

/-- C7: for every distance function, recursion budget, input ring and
epsilon, the Ramer–Douglas–Peucker simplification never has more points
than its input and preserves the first and the last point. -/
theorem c7_simplify_monotone (dist : Pt → Pt → Pt → ℚ) (fuel : ℕ)
    (points : List Pt) (epsilon : ℚ) :
    (simplifyPolygonFuel dist fuel points epsilon).length ≤ points.length ∧
    (simplifyPolygonFuel dist fuel points epsilon).head? = points.head? ∧
    (simplifyPolygonFuel dist fuel points epsilon).getLast? = points.getLast? :=
  ⟨(simplifyPolygonFuel_spec dist fuel points epsilon).2.1,
   (simplifyPolygonFuel_spec dist fuel points epsilon).2.2.1,
   (simplifyPolygonFuel_spec dist fuel points epsilon).2.2.2⟩

end CsvProc

namespace CsvProc


/-- Go map lookup, on an association list. -/
def alGet {α : Type _} : List (String × α) → String → Option α
  | [], _ => none
  | (k0, v0) :: t, k => if k0 = k then some v0 else alGet t k

/-- Go map assignment: replace the entry if the key is present, append
otherwise. -/
def alSet {α : Type _} : List (String × α) → String → α → List (String × α)
  | [], k, v => [(k, v)]
  | (k0, v0) :: t, k, v => if k0 = k then (k, v) :: t else (k0, v0) :: alSet t k v

theorem alGet_alSet_self {α : Type _} (l : List (String × α)) (k : String) (v : α) :
    alGet (alSet l k v) k = some v := by
  induction l with
  | nil => simp [alGet, alSet]
  | cons p t ih =>
    obtain ⟨k0, v0⟩ := p
    by_cases h : k0 = k
    · simp [alGet, alSet, h]
    · simp [alGet, alSet, h, ih]

theorem alGet_alSet_ne {α : Type _} (l : List (String × α)) {k q : String}
    (h : q ≠ k) (v : α) : alGet (alSet l k v) q = alGet l q := by
  have hkq : ¬ (k = q) := fun hh => h hh.symm
  induction l with
  | nil => simp [alGet, alSet, hkq]
  | cons p t ih =>
    obtain ⟨k0, v0⟩ := p
    by_cases h0 : k0 = k
    · subst h0
      simp [alGet, alSet, hkq]
    · simp [alGet, alSet, h0, ih]

/-- State of the competitor-financials scan (`loadCompetitionData`,
competition_service.go): the matched SIRETs not yet seen and the keyed
store `s.competitionData`. The store keeps the full CSV row; the Go code
copies its cells field by field into a `BusinessData`. -/
structure CompState where
  sirets : List String
  store : List (String × List Field)

/-- One row of `loadCompetitionData`: skip rows shorter than the header;
the SIRET is column 1 (SIREN) ++ column 2 (NIC); skip SIRETs not (or no
longer) in `sirets`; otherwise delete the SIRET from `sirets` and store
the row. The publication-date comparison only runs when the store already
holds the SIRET, which the deletion makes unreachable. -/
def processCompRow (headerLen : ℕ) (st : CompState) (record : List Field) : CompState :=
  if record.length < headerLen then st
  else if ((getF record 1).text ++ (getF record 2).text) ∉ st.sirets then st
  else
    match alGet st.store ((getF record 1).text ++ (getF record 2).text) with
    | some existingData =>
      match (getF record 18).date with
      | none =>
        { sirets := st.sirets.filter (fun x => x ≠ (getF record 1).text ++ (getF record 2).text),
          store := st.store }
      | some publicationDateParsed =>
        if (getF existingData 18).text ≠ "" then
          match (getF existingData 18).date with
          | none =>
            { sirets := st.sirets.filter
                (fun x => x ≠ (getF record 1).text ++ (getF record 2).text),
              store := st.store }
          | some existingPublicationDate =>
            if ¬ (publicationDateParsed > existingPublicationDate) then
              { sirets := st.sirets.filter
                  (fun x => x ≠ (getF record 1).text ++ (getF record 2).text),
                store := st.store }
            else
              { sirets := st.sirets.filter
                  (fun x => x ≠ (getF record 1).text ++ (getF record 2).text),
                store := alSet st.store ((getF record 1).text ++ (getF record 2).text) record }
        else
          { sirets := st.sirets.filter
              (fun x => x ≠ (getF record 1).text ++ (getF record 2).text),
            store := alSet st.store ((getF record 1).text ++ (getF record 2).text) record }
    | none =>
      { sirets := st.sirets.filter (fun x => x ≠ (getF record 1).text ++ (getF record 2).text),
        store := alSet st.store ((getF record 1).text ++ (getF record 2).text) record }

/-- `loadCompetitionData`: stream the rows over the initial matched set
(the Go `sirets` map) and an empty store. -/
def loadCompetitionData (headerLen : ℕ) (matched : List String)
    (rows : List (List Field)) : List (String × List Field) :=
  (rows.foldl (processCompRow headerLen) ⟨matched, []⟩).store

/-- The first row of the stream that is long enough and carries the given
SIRET. -/
def firstMatchingRow (headerLen : ℕ) (siret : String) (rows : List (List Field)) :
    Option (List Field) :=
  (rows.filter (fun r =>
    decide (headerLen ≤ r.length) && decide ((getF r 1).text ++ (getF r 2).text = siret))).head?

theorem processCompRow_not_in (headerLen : ℕ) {st : CompState} {siret : String}
    (h : siret ∉ st.sirets) (record : List Field) :
    siret ∉ (processCompRow headerLen st record).sirets ∧
    alGet (processCompRow headerLen st record).store siret = alGet st.store siret := by
  unfold processCompRow
  split
  · exact ⟨h, rfl⟩
  split
  · exact ⟨h, rfl⟩
  next hcont =>
    rw [not_not] at hcont
    have hne : siret ≠ (getF record 1).text ++ (getF record 2).text := by
      intro heq
      exact h (heq ▸ hcont)
    have hmem : siret ∉ st.sirets.filter
        (fun x => x ≠ (getF record 1).text ++ (getF record 2).text) := by
      intro hcontra
      exact h (List.mem_of_mem_filter hcontra)
    repeat' split
    all_goals exact ⟨hmem, by first | rfl | exact alGet_alSet_ne _ hne _⟩

theorem foldl_processCompRow_not_in (headerLen : ℕ) (siret : String) :
    ∀ (rows : List (List Field)) (st : CompState), siret ∉ st.sirets →
      siret ∉ (rows.foldl (processCompRow headerLen) st).sirets ∧
      alGet (rows.foldl (processCompRow headerLen) st).store siret = alGet st.store siret := by
  intro rows
  induction rows with
  | nil => exact fun st h => ⟨h, rfl⟩
  | cons r t ih =>
    intro st h
    have hr := processCompRow_not_in headerLen h r
    simp only [List.foldl_cons]
    obtain ⟨h1, h2⟩ := ih _ hr.1
    exact ⟨h1, h2.trans hr.2⟩

theorem foldl_processCompRow_in (headerLen : ℕ) (siret : String) :
    ∀ (rows : List (List Field)) (st : CompState), siret ∈ st.sirets →
      alGet st.store siret = none →
      alGet (rows.foldl (processCompRow headerLen) st).store siret =
        firstMatchingRow headerLen siret rows := by
  intro rows
  induction rows with
  | nil =>
    intro st _ hstore
    simpa [firstMatchingRow] using hstore
  | cons r t ih =>
    intro st hmem hstore
    simp only [List.foldl_cons]
    by_cases hlen : r.length < headerLen
    · have hstep : processCompRow headerLen st r = st := by
        unfold processCompRow
        rw [if_pos hlen]
      rw [hstep, ih _ hmem hstore]
      simp only [firstMatchingRow, List.filter_cons]
      rw [if_neg (by simp; omega)]
    · by_cases hsame : (getF r 1).text ++ (getF r 2).text = siret
      · -- the row carries our SIRET: it is stored, and never replaced later
        have hstep : processCompRow headerLen st r =
            { sirets := st.sirets.filter (fun x => x ≠ (getF r 1).text ++ (getF r 2).text),
              store := alSet st.store ((getF r 1).text ++ (getF r 2).text) r } := by
          unfold processCompRow
          rw [if_neg hlen, if_neg (by rw [not_not, hsame]; exact hmem), hsame, hstore]
        rw [hstep]
        have hout : siret ∉ st.sirets.filter
            (fun x => x ≠ (getF r 1).text ++ (getF r 2).text) := by
          intro hcontra
          have h2 := List.of_mem_filter hcontra
          rw [hsame] at h2
          simp at h2
        rw [(foldl_processCompRow_not_in headerLen siret t _ hout).2]
        simp only [hsame, alGet_alSet_self]
        simp only [firstMatchingRow, List.filter_cons]
        rw [if_pos (by simp [hsame]; omega)]
        simp
      · -- a row for a different SIRET: our key's entry is untouched
        have hne : siret ≠ (getF r 1).text ++ (getF r 2).text :=
          fun hc => hsame hc.symm
        have hpres : siret ∈ (processCompRow headerLen st r).sirets ∧
            alGet (processCompRow headerLen st r).store siret = none := by
          unfold processCompRow
          split
          · exact ⟨hmem, hstore⟩
          split
          · exact ⟨hmem, hstore⟩
          have hmem2 : siret ∈ st.sirets.filter
              (fun x => x ≠ (getF r 1).text ++ (getF r 2).text) := by
            rw [List.mem_filter]
            exact ⟨hmem, by simpa using hne⟩
          repeat' split
          all_goals exact ⟨hmem2, by
            first
            | exact hstore
            | (rw [alGet_alSet_ne _ hne _]; exact hstore)⟩
        rw [ih _ hpres.1 hpres.2]
        simp only [firstMatchingRow, List.filter_cons]
        rw [if_neg (by simp [hsame])]

/-- C3 counterexample data: two 19-cell rows with SIRET "1122"; the first
has publication date day 0. -/
def compRowA : List Field :=
  (((List.replicate 19 (⟨"", none, none⟩ : Field)).set 1 ⟨"11", none, none⟩).set 2
      ⟨"22", none, none⟩).set 18 ⟨"2020-01-01", none, some 0⟩

/-- Second duplicate row, strictly more recent publication date (day 1). -/
def compRowB : List Field :=
  ((((List.replicate 19 (⟨"", none, none⟩ : Field)).set 0 ⟨"B", none, none⟩).set 1
      ⟨"11", none, none⟩).set 2 ⟨"22", none, none⟩).set 18 ⟨"2021-01-01", none, some 1⟩

/-- C3 counterexample: with two rows sharing SIRET "1122" and the second
strictly more recent, the store retains the FIRST row, not the one with
the most recent publication date — the claim fails on this input. -/
theorem c3_counterexample :
    alGet (loadCompetitionData 19 ["1122"] [compRowA, compRowB]) "1122" = some compRowA ∧
    compRowA ≠ compRowB ∧
    (getF compRowB 18).date = some 1 ∧ (getF compRowA 18).date = some 0 := by
  refine ⟨by decide, by decide, by decide, by decide⟩

/-- C3 amended: the financial store retains, for each SIRET of the
matched set, the FIRST sufficiently long row of the stream carrying it
(the SIRET is deleted from the matched set after that row, so the
publication-date comparison never runs); SIRETs outside the matched set
are never stored. -/
theorem c3_store_first_wins (headerLen : ℕ) (matched : List String)
    (rows : List (List Field)) (siret : String) :
    alGet (loadCompetitionData headerLen matched rows) siret =
      if siret ∈ matched then firstMatchingRow headerLen siret rows else none := by
  unfold loadCompetitionData
  by_cases h : siret ∈ matched
  · rw [if_pos h]
    exact foldl_processCompRow_in headerLen siret rows ⟨matched, []⟩ h rfl
  · rw [if_neg h]
    exact (foldl_processCompRow_not_in headerLen siret rows ⟨matched, []⟩ h).2

end CsvProc

namespace CsvProc

/-- The three revenue-band cells of a stored financial record
(`models.BusinessData`); the other cells of the record play no role in
the band classification or the `oldDataUsed` flag. -/
structure RangeData where
  rangeCA1 : String
  rangeCA2 : String
  rangeCA3 : String
deriving DecidableEq, Repr

/-- The `currKey` selection shared by `GetCompetitionData` and
`getStatusCount`: `"rangeCA1"` if non-empty, else `"rangeCA2"`, else
`"rangeCA3"`, else the empty string. -/
def currKeyOf (business : RangeData) : String :=
  if business.rangeCA1 ≠ "" then "rangeCA1"
  else if business.rangeCA2 ≠ "" then "rangeCA2"
  else if business.rangeCA3 ≠ "" then "rangeCA3"
  else ""

/-- `getStatusCount` (competition_service.go): classify the selected band
cell by its first character into the A..E counters. -/
def getStatusCount (business : RangeData) : ℕ × ℕ × ℕ × ℕ × ℕ :=
  if currKeyOf business ≠ "" then
    let status :=
      if currKeyOf business = "rangeCA1" then business.rangeCA1
      else if currKeyOf business = "rangeCA2" then business.rangeCA2
      else business.rangeCA3
    match status.data.head? with
    | some c =>
      if c = 'A' then (1, 0, 0, 0, 0)
      else if c = 'B' then (0, 1, 0, 0, 0)
      else if c = 'C' then (0, 0, 1, 0, 0)
      else if c = 'D' then (0, 0, 0, 1, 0)
      else if c = 'E' then (0, 0, 0, 0, 1)
      else (0, 0, 0, 0, 0)
    | none => (0, 0, 0, 0, 0)
  else (0, 0, 0, 0, 0)

/-- The `oldDataUsed` accumulation of the per-NAF-group loop of
`GetCompetitionData` (lines 388-407): businesses without a financial
record are skipped; any record whose `currKey` is not `"rangeCA1"`
(including the no-key case `""`) sets the flag. -/
def groupOldDataUsed (lookup : String → Option RangeData) (group : List Business) : Bool :=
  group.foldl (fun old b =>
    match lookup b.siret with
    | none => old
    | some currBusiness =>
      if currKeyOf currBusiness ≠ "rangeCA1" then true else old) false

/-- The claim's notion of a chosen band key: `rangeCA1` if non-empty,
else `rangeCA2`, else `rangeCA3`, and NO key when all three are empty. -/
def chosenBandKey (business : RangeData) : Option String :=
  if business.rangeCA1 ≠ "" then some "rangeCA1"
  else if business.rangeCA2 ≠ "" then some "rangeCA2"
  else if business.rangeCA3 ≠ "" then some "rangeCA3"
  else none

/-- C9 as stated: some matched business with a financial record has a
chosen band key that is not `rangeCA1`. -/
def c9ClaimCondition (lookup : String → Option RangeData) (group : List Business) : Bool :=
  group.any (fun b =>
    match lookup b.siret with
    | none => false
    | some r =>
      match chosenBandKey r with
      | none => false
      | some k => k ≠ "rangeCA1")

/-- Record store for the C9 counterexample: SIRET "S1" has a financial
record whose three range cells are all empty. -/
def c9Lookup : String → Option RangeData :=
  fun s => if s = "S1" then some ⟨"", "", ""⟩ else none

/-- The single-business group for the C9 counterexample. -/
def c9Group : List Business :=
  [{ name := "B1", siret := "S1", nafCode := "47.11A", latitude := 0, longitude := 0,
     address := "" }]

/-- C9 counterexample: a matched business whose record has all three
range cells empty sets `oldDataUsed` (its `currKey` is `""`), yet no
record has a chosen band key differing from `rangeCA1` — the stated
equivalence fails on this input. -/
theorem c9_counterexample :
    groupOldDataUsed c9Lookup c9Group = true ∧
    c9ClaimCondition c9Lookup c9Group = false := by
  exact ⟨by decide, by decide⟩

theorem currKeyOf_ne_rangeCA1_iff (r : RangeData) :
    currKeyOf r ≠ "rangeCA1" ↔ r.rangeCA1 = "" := by
  unfold currKeyOf
  by_cases h1 : r.rangeCA1 = ""
  · constructor
    · intro _
      exact h1
    · intro _
      rw [if_neg (by simp [h1])]
      repeat' split
      all_goals decide
  · simp [h1]

/-- C9 amended: the group's `oldDataUsed` flag is true iff some matched
business has a financial record whose `rangeCA1` cell is empty — that
is, the selected key is `rangeCA2`, `rangeCA3`, or (when all bands are
empty) no key at all. -/
theorem c9_old_data_used_iff (lookup : String → Option RangeData) (group : List Business) :
    groupOldDataUsed lookup group = true ↔
      ∃ b ∈ group, ∃ r, lookup b.siret = some r ∧ r.rangeCA1 = "" := by
  have hfold : ∀ (l : List Business) (acc : Bool),
      l.foldl (fun old b =>
        match lookup b.siret with
        | none => old
        | some currBusiness =>
          if currKeyOf currBusiness ≠ "rangeCA1" then true else old) acc =
      (acc || l.any (fun b =>
        match lookup b.siret with
        | none => false
        | some r => decide (r.rangeCA1 = ""))) := by
    intro l
    induction l with
    | nil => intro acc; simp
    | cons b t ih =>
      intro acc
      simp only [List.foldl_cons, List.any_cons, ih]
      have hstep : (match lookup b.siret with
          | none => acc
          | some currBusiness =>
            if currKeyOf currBusiness ≠ "rangeCA1" then true else acc) =
          (acc || (match lookup b.siret with
            | none => false
            | some r => decide (r.rangeCA1 = ""))) := by
        cases hb : lookup b.siret with
        | none => simp
        | some r =>
          simp only
          by_cases hr : currKeyOf r ≠ "rangeCA1"
          · have hr1 : r.rangeCA1 = "" := (currKeyOf_ne_rangeCA1_iff r).mp hr
            rw [if_pos hr]
            simp [hr1]
          · have hr1 : ¬ r.rangeCA1 = "" :=
              fun hc => hr ((currKeyOf_ne_rangeCA1_iff r).mpr hc)
            rw [if_neg hr]
            simp [hr1]
      rw [hstep, Bool.or_assoc]
  unfold groupOldDataUsed
  rw [hfold, Bool.false_or, List.any_eq_true]
  constructor
  · rintro ⟨b, hb, hcond⟩
    refine ⟨b, hb, ?_⟩
    cases hlk : lookup b.siret with
    | none => rw [hlk] at hcond; exact absurd hcond (by simp)
    | some r =>
      rw [hlk] at hcond
      simp only [decide_eq_true_eq] at hcond
      exact ⟨r, rfl, hcond⟩
  · rintro ⟨b, hb, r, hlk, hr⟩
    exact ⟨b, hb, by rw [hlk]; simpa using hr⟩

end CsvProc

namespace CsvProc

/-- An IRIS zone as the zone pass of `GetIrisData` sees it: commune code,
raw attribute vector, total population, and the geometry-library results
against the query polygon (`none` models a zone with a nil polygon). -/
structure IrisZoneM where
  com : String
  rawData : List (String × ℚ)
  totalPopulation : ℚ
  ops : Option GeomOps
deriving DecidableEq, Repr

/-- What the zone pass writes into `models.IrisResponse`: attribute sums,
weighted total population, and the intersecting commune codes. -/
structure IrisAgg where
  data : List (String × ℚ)
  totalPopulation : ℚ
  communes : List String
deriving DecidableEq, Repr

/-- `aggregateIrisData` (csv_service.go): `response.Data[k] += v × factor`
for every raw attribute, `totalPopulation += population × factor`, with
`factor = pct/100`. -/
def aggregateIrisData (response : IrisAgg) (iris : IrisZoneM) (inclusionPercentage : ℚ) :
    IrisAgg :=
  { response with
    data := iris.rawData.foldl
      (fun d kv => alSet d kv.1 ((alGet d kv.1).getD 0 + kv.2 * (inclusionPercentage / 100)))
      response.data,
    totalPopulation :=
      response.totalPopulation + iris.totalPopulation * (inclusionPercentage / 100) }

/-- The parallel zone pass of `GetIrisData`: zones with a nil polygon emit
nothing; every other zone emits `(zone, pct)` when its clamped
intersection percentage is positive. The reducer folds emissions in some
order; all its accumulations commute, and the claims below only inspect
the emptiness of the emission list, so list order stands in for channel
order. -/
def zonePass (zones : List IrisZoneM) : List (IrisZoneM × ℚ) :=
  zones.filterMap (fun iris =>
    match iris.ops with
    | none => none
    | some o =>
      if calculateIntersectionPercentage o > 0 then
        some (iris, calculateIntersectionPercentage o)
      else none)

/-- Commune-set insertion (`intersectingCommunes[com] = true`). -/
def insertCommune (communes : List String) (c : String) : List String :=
  if c ∈ communes then communes else communes ++ [c]

/-- `GetIrisData` up to the zero-zone check: fold the emissions into the
aggregate and the intersecting-commune set; fail with
"no intersecting zones found" when no zone intersected. The commune, QP
and criminality passes run only on the success path and are not consulted
by the claims settled here. -/
def getIrisDataZoneStage (zones : List IrisZoneM) : Except String IrisAgg :=
  let agg := (zonePass zones).foldl
    (fun acc zp =>
      let acc2 := aggregateIrisData acc zp.1 zp.2
      { acc2 with communes := insertCommune acc2.communes zp.1.com })
    ⟨[], 0, []⟩
  if (zonePass zones).length = 0 then Except.error "no intersecting zones found"
  else Except.ok agg

/-- `HandleIrisData` (handlers.go lines 488-494): a failing `GetIrisData`
is surfaced as HTTP 500 with the plain-text body
"Error processing request"; success encodes the response with status
200. -/
def handleIrisDataStatus (result : Except String IrisAgg) : ℕ × String :=
  match result with
  | Except.error _ => (500, "Error processing request")
  | Except.ok _ => (200, "")

theorem calcPct_eq_zero_of_lt5 (g : GeomOps)
    (h : calculateIntersectionArea g / g.irisArea * 100 < 5) :
    calculateIntersectionPercentage g = 0 := by
  unfold calculateIntersectionPercentage
  by_cases ha : calculateIntersectionArea g = 0
  · simp [ha]
  · by_cases hA : g.irisArea ≤ 0
    · simp [ha, hA]
    · simp [ha, hA, h]

/-- C6: when every zone's raw intersection percentage is below 5 (so the
clamp yields 0 everywhere), the aggregation returns the error
"no intersecting zones found" — no partial response — and the HTTP
handler surfaces it as status 500. -/
theorem c6_no_intersecting_zones (zones : List IrisZoneM)
    (h : ∀ z ∈ zones, ∀ o ∈ z.ops,
      calculateIntersectionArea o / o.irisArea * 100 < 5) :
    getIrisDataZoneStage zones = Except.error "no intersecting zones found" ∧
    (handleIrisDataStatus (getIrisDataZoneStage zones)).1 = 500 := by
  have hz : zonePass zones = [] := by
    unfold zonePass
    rw [List.filterMap_eq_nil_iff]
    intro z hzin
    cases hops : z.ops with
    | none => rfl
    | some o =>
      have hlt := h z hzin o (by rw [hops]; rfl)
      have h0 : calculateIntersectionPercentage o = 0 := calcPct_eq_zero_of_lt5 o hlt
      simp [hops, h0]
  have herr : getIrisDataZoneStage zones = Except.error "no intersecting zones found" := by
    unfold getIrisDataZoneStage
    rw [hz]
    rfl
  exact ⟨herr, by rw [herr]; rfl⟩

/-- C6 witness zones: one true zone at raw percentage 1 (< 5), one with a
nil polygon. -/
def c6Zones : List IrisZoneM :=
  [⟨"75056", [("population_total", 10)], 10, some ⟨true, false, false, some 1, 100⟩⟩,
   ⟨"13055", [], 0, none⟩]

theorem c6_no_intersecting_zones_witness :
    (∀ z ∈ c6Zones, ∀ o ∈ z.ops,
      calculateIntersectionArea o / o.irisArea * 100 < 5) ∧
    (getIrisDataZoneStage c6Zones = Except.error "no intersecting zones found" ∧
     (handleIrisDataStatus (getIrisDataZoneStage c6Zones)).1 = 500) :=
  ⟨by with_unfolding_all decide, c6_no_intersecting_zones c6Zones (by with_unfolding_all decide)⟩

/-- A commune record (`models.CommuneData`); `percentage` is filled later
by the commune pass of `GetIrisData`, `polygonSrc` keeps the WKT-ish cell
the Go code hands to `parsePolygon`. -/
structure CommuneDataM where
  id : String
  communeCode : String
  population : ℚ
  communeName : String
  postalCode : String
  surfaceArea : ℚ
  polygonSrc : String
  percentage : ℚ := 0
deriving DecidableEq, Repr

/-- `loadCommuneData` (csv_service.go): skip rows shorter than 7 cells
and rows whose INSEE code (column 0) is not in the target set; store the
rest keyed by code, numbering stored rows from 0. All numeric cells go
through `parseFloat`, so parse failures yield `0.0` and never drop the
row. -/
def loadCommuneData (targets : List String) (rows : List (List Field)) :
    List (String × CommuneDataM) :=
  (rows.foldl
    (fun (st : List (String × CommuneDataM) × ℕ) record =>
      if record.length < 7 then st
      else if (getF record 0).text ∉ targets then st
      else
        (alSet st.1 (getF record 0).text
          { id := toString st.2,
            communeCode := (getF record 0).text,
            population := parseFloatF (getF record 1),
            communeName := (getF record (record.length - 5)).text,
            postalCode := (getF record (record.length - 6)).text,
            surfaceArea := parseFloatF (getF record (record.length - 4)),
            polygonSrc := (getF record (record.length - 10)).text },
         st.2 + 1))
    ([], 0)).1

/-- A well-formed 21-cell business row with parseable coordinates. -/
def c8GoodRow : List Field :=
  ((((List.replicate 21 (⟨"", none, none⟩ : Field)).set 0 ⟨"A", none, none⟩).set 16
      ⟨"62.01Z", none, none⟩).set 19 ⟨"2", some 2, none⟩).set 20 ⟨"1", some 1, none⟩

/-- The same row with the longitude cell replaced by unparseable text. -/
def c8BadRow : List Field := c8GoodRow.set 19 ⟨"abc", none, none⟩

/-- C8 counterexample: the business loader DROPS a row that differs from
a kept row only in its longitude cell failing to parse — contradicting
"no row is dropped solely because a numeric field fails to parse". -/
theorem c8_counterexample :
    loadBusinessesByNAF [c8GoodRow] "62.01Z" ≠ [] ∧
    loadBusinessesByNAF [c8BadRow] "62.01Z" = [] ∧
    c8BadRow = c8GoodRow.set 19 ⟨"abc", none, none⟩ :=
  ⟨by decide, by decide, rfl⟩

theorem loadCommuneData_step_keeps {targets : List String} {key : String}
    {st : List (String × CommuneDataM) × ℕ}
    (h : (alGet st.1 key).isSome = true) (record : List Field) :
    (alGet ((fun (st : List (String × CommuneDataM) × ℕ) record =>
      if record.length < 7 then st
      else if (getF record 0).text ∉ targets then st
      else
        (alSet st.1 (getF record 0).text
          { id := toString st.2,
            communeCode := (getF record 0).text,
            population := parseFloatF (getF record 1),
            communeName := (getF record (record.length - 5)).text,
            postalCode := (getF record (record.length - 6)).text,
            surfaceArea := parseFloatF (getF record (record.length - 4)),
            polygonSrc := (getF record (record.length - 10)).text },
         st.2 + 1)) st record).1 key).isSome = true := by
  dsimp only
  split
  · exact h
  split
  · exact h
  by_cases hkey : key = (getF record 0).text
  · rw [hkey, alGet_alSet_self]
    rfl
  · rw [alGet_alSet_ne _ hkey]
    exact h

theorem loadCommuneData_aux (targets : List String) (key : String) :
    ∀ (rows : List (List Field)) (st : List (String × CommuneDataM) × ℕ),
      ((alGet st.1 key).isSome = true ∨
        (∃ r ∈ rows, 7 ≤ r.length ∧ (getF r 0).text = key ∧ key ∈ targets)) →
      (alGet (rows.foldl
        (fun (st : List (String × CommuneDataM) × ℕ) record =>
          if record.length < 7 then st
          else if (getF record 0).text ∉ targets then st
          else
            (alSet st.1 (getF record 0).text
              { id := toString st.2,
                communeCode := (getF record 0).text,
                population := parseFloatF (getF record 1),
                communeName := (getF record (record.length - 5)).text,
                postalCode := (getF record (record.length - 6)).text,
                surfaceArea := parseFloatF (getF record (record.length - 4)),
                polygonSrc := (getF record (record.length - 10)).text },
             st.2 + 1)) st).1 key).isSome = true := by
  intro rows
  induction rows with
  | nil =>
    intro st h
    rcases h with h | ⟨r, hr, _⟩
    · exact h
    · exact absurd hr (List.not_mem_nil r)
  | cons r t ih =>
    intro st h
    simp only [List.foldl_cons]
    rcases h with h | ⟨r0, hr0, hlen0, hkey0, htgt0⟩
    · exact ih _ (Or.inl (loadCommuneData_step_keeps h r))
    · rcases List.mem_cons.mp hr0 with rfl | hr0t
      · refine ih _ (Or.inl ?_)
        dsimp only
        rw [if_neg (by omega), if_neg (by rw [hkey0]; simpa using htgt0), hkey0,
          alGet_alSet_self]
        rfl
      · exact ih _ (Or.inr ⟨r0, hr0t, hlen0, hkey0, htgt0⟩)

/-- C8 amended: rows shorter than the loader's minimum are skipped and
numeric cells read through `parseFloat` default to `0.0` without
dropping the row — shown here for the commune loader, whose stored set
depends only on row length and the target filter, never on numeric parse
success; the business loader, by exception, drops rows whose longitude
or latitude fails to parse (see the counterexample). -/
theorem c8_commune_loader_keeps_rows (targets : List String)
    (rows : List (List Field)) (record : List Field)
    (hmem : record ∈ rows) (hlen : 7 ≤ record.length)
    (htgt : (getF record 0).text ∈ targets) :
    (alGet (loadCommuneData targets rows) ((getF record 0).text)).isSome = true := by
  unfold loadCommuneData
  exact loadCommuneData_aux targets _ rows ([], 0)
    (Or.inr ⟨record, hmem, hlen, rfl, htgt⟩)

theorem c8_commune_loader_keeps_rows_witness :
    (c8GoodRow ∈ [c8GoodRow] ∧ 7 ≤ c8GoodRow.length ∧
      (getF c8GoodRow 0).text ∈ ["A"]) ∧
    (alGet (loadCommuneData ["A"] [c8GoodRow]) ((getF c8GoodRow 0).text)).isSome = true :=
  ⟨⟨by decide, by decide, by decide⟩,
   c8_commune_loader_keeps_rows ["A"] [c8GoodRow] c8GoodRow (by decide) (by decide)
     (by decide)⟩

end CsvProc

namespace CsvProc

/-- `models.CriminalityData`: the per-crime-type slot. This version of the
code never writes `coveredArea`, `partialCoveredArea` or
`coveredResidence`; they stay at their zero values. -/
structure CrimeSlot where
  isTotal : Bool := false
  crimesTotal : ℚ := 0
  percentageCoveredCrimes : ℚ := 0
  percentageRelativeToDepartmental : ℚ := 0
  coveredArea : ℚ := 0
  partialCoveredArea : ℚ := 0
  coveredResidence : ℚ := 0
deriving DecidableEq, Repr

/-- Per-department accumulator of `CalculateCriminality`. -/
structure DeptAcc where
  totalCrimes : List (String × ℚ) := []
  totalPopulation : ℚ := 0
deriving DecidableEq, Repr

/-- The accumulators of `CalculateCriminality`. -/
structure CrimAcc where
  crimeData : List (String × CrimeSlot) := []
  hasData : List String := []
  totalPopulation : ℚ := 0
  coveredPopulation : ℚ := 0
  departmentData : List (String × DeptAcc) := []
deriving DecidableEq, Repr

/-- The two crime tables of `CriminalityService`, keyed by trimmed
commune / department code (`loadCommuneCrimes`, `loadDepartmentCrimes`). -/
structure CrimSvc where
  communeCrimes : List (String × List (String × ℚ))
  departmentCrimes : List (String × List (String × ℚ))
deriving Repr

/-- `strings.TrimLeft(code, "0")`. -/
def trimLeadingZeros (s : String) : String :=
  ⟨s.data.dropWhile (· == '0')⟩

/-- One commune of the loop of `CalculateCriminality`
(criminality_service.go lines 179-225). `none` models the Go panic of
`communeCode[:2]` when the trimmed code is shorter than 2 (string
slicing is byte-based in Go; INSEE codes are ASCII, so character count
agrees). Department registration happens even for communes without crime
data; inside the crime loop the department's population is incremented
once PER CRIME TYPE, exactly as in the source. -/
def processCrimCommune (svc : CrimSvc) (acc : CrimAcc) (commune : CommuneDataM) :
    Option CrimAcc :=
  if (trimLeadingZeros commune.communeCode).length < 2 then none
  else
    let communeCode := trimLeadingZeros commune.communeCode
    let departmentCode : String := ⟨communeCode.data.take 2⟩
    let acc1 := { acc with departmentData :=
      (match alGet acc.departmentData departmentCode with
       | some _ => acc.departmentData
       | none => alSet acc.departmentData departmentCode {}) }
    let acc2 :=
      match alGet svc.communeCrimes communeCode with
      | none => acc1
      | some communeCrimes =>
        let population := commune.population * commune.percentage / 100
        communeCrimes.foldl
          (fun (a : CrimAcc) (kv : String × ℚ) =>
            let base :=
              match alGet a.crimeData kv.1 with
              | some d => d
              | none => { isTotal := true, crimesTotal := 0, percentageCoveredCrimes := 100 }
            let weightedCrimes := kv.2 * population / 1000
            let deptData := (alGet a.departmentData departmentCode).getD {}
            { a with
              crimeData := alSet a.crimeData kv.1
                { base with crimesTotal := base.crimesTotal + weightedCrimes },
              hasData := if kv.1 ∈ a.hasData then a.hasData else a.hasData ++ [kv.1],
              departmentData := alSet a.departmentData departmentCode
                { totalCrimes := alSet deptData.totalCrimes kv.1
                    ((alGet deptData.totalCrimes kv.1).getD 0 + weightedCrimes),
                  totalPopulation := deptData.totalPopulation + population } })
          { acc1 with coveredPopulation := acc1.coveredPopulation + population }
    some { acc2 with totalPopulation :=
      acc2.totalPopulation + commune.population * commune.percentage / 100 }

/-- The department-of-highest-covered-population scan of the final loop
(strict `>`, starting from `("", 0)`; the Go map iteration order only
matters on exact population ties). -/
def maxDeptCode (departmentData : List (String × DeptAcc)) : String :=
  (departmentData.foldl
    (fun best kv => if kv.2.totalPopulation > best.2 then (kv.1, kv.2.totalPopulation) else best)
    ("", 0)).1

/-- The final loop of `CalculateCriminality` (lines 227-259) applied to
one crime-type entry: the dead `!hasData` branch clears `isTotal`;
otherwise `areaCrimeRate = crimesTotal × 1000 / totalPopulation` feeds
only `percentageRelativeToDepartmental` (when the max-coverage
department and the crime type are in the department table), and
`percentageCoveredCrimes` becomes `coveredPopulation/totalPopulation ×
100`. `crimesTotal` itself is never written. -/
def finalizeEntry (svc : CrimSvc) (acc : CrimAcc) (crimeType : String) (d : CrimeSlot) :
    CrimeSlot :=
  if crimeType ∉ acc.hasData then { d with isTotal := false }
  else
    let areaCrimeRate := d.crimesTotal * 1000 / acc.totalPopulation
    let d1 :=
      match alGet svc.departmentCrimes (maxDeptCode acc.departmentData) with
      | none => d
      | some deptCrimes =>
        match alGet deptCrimes crimeType with
        | none => d
        | some deptRate =>
          { d with percentageRelativeToDepartmental :=
              ((areaCrimeRate - deptRate) / deptRate) * 100 }
    if acc.totalPopulation > 0 then
      { d1 with percentageCoveredCrimes := (acc.coveredPopulation / acc.totalPopulation) * 100 }
    else d1

/-- The final loop over all accumulated crime types. -/
def finalizeCrim (svc : CrimSvc) (acc : CrimAcc) : CrimAcc :=
  { acc with crimeData :=
      acc.crimeData.map (fun kd => (kd.1, finalizeEntry svc acc kd.1 kd.2)) }

/-- The commune loop of `CalculateCriminality`; `none` models a panic. -/
def calculateCriminalityAcc (svc : CrimSvc) (communes : List CommuneDataM) :
    Option CrimAcc :=
  communes.foldlM (processCrimCommune svc) {}

/-- `CalculateCriminality`: accumulate over the communes, then run the
final loop. -/
def calculateCriminality (svc : CrimSvc) (communes : List CommuneDataM) :
    Option CrimAcc :=
  (calculateCriminalityAcc svc communes).map (finalizeCrim svc)

/-- The mapping of the accumulated data onto each of the 14 response
fields: slot `k` is emitted iff `crimeData` holds it AND `hasData[k]`
(`if data, exists := crimeData[k]; exists && hasData[k]`). -/
def responseSlot (acc : CrimAcc) (k : String) : Option CrimeSlot :=
  match alGet acc.crimeData k with
  | some d => if k ∈ acc.hasData then some d else none
  | none => none

end CsvProc

namespace CsvProc

theorem alGet_map_finalize (svc : CrimSvc) (acc : CrimAcc)
    (l : List (String × CrimeSlot)) (k : String) :
    alGet (l.map (fun kd => (kd.1, finalizeEntry svc acc kd.1 kd.2))) k =
      (alGet l k).map (finalizeEntry svc acc k) := by
  induction l with
  | nil => rfl
  | cons p t ih =>
    obtain ⟨k0, v0⟩ := p
    by_cases h : k0 = k
    · simp [alGet, h]
    · simp [alGet, h, ih]

theorem finalizeEntry_crimesTotal (svc : CrimSvc) (acc : CrimAcc) (k : String)
    (d : CrimeSlot) : (finalizeEntry svc acc k d).crimesTotal = d.crimesTotal := by
  unfold finalizeEntry
  repeat' split
  all_goals rfl

/-- C4 amended: the final loop never writes `crimesTotal`; the emitted
slot keeps the accumulated weighted crime total (`Σ rate × popShare /
1000`), and the per-1000 `areaCrimeRate` feeds only
`percentageRelativeToDepartmental`. -/
theorem c4_crimes_total_preserved (svc : CrimSvc) (acc : CrimAcc) (k : String) :
    (alGet (finalizeCrim svc acc).crimeData k).map (·.crimesTotal) =
      (alGet acc.crimeData k).map (·.crimesTotal) := by
  unfold finalizeCrim
  simp only
  rw [alGet_map_finalize]
  cases h : alGet acc.crimeData k with
  | none => rfl
  | some d => simp [finalizeEntry_crimesTotal]

/-- C4 counterexample service: one commune with a single crime rate. -/
def c4Svc : CrimSvc := ⟨[("75056", [("drug_usage", 2)])], []⟩

/-- Commune of population 2000 fully inside the polygon. -/
def c4Commune : CommuneDataM :=
  { id := "0", communeCode := "75056", population := 2000, communeName := "Paris",
    postalCode := "75000", surfaceArea := 0, polygonSrc := "", percentage := 100 }

/-- C4 counterexample: the emitted `crimes_total` is the accumulated
weighted total 4 (= 2 × 2000/1000), NOT the claimed per-1000 area rate
`crimesTotal × 1000 / coveredResidence = 4 × 1000 / 2000 = 2`. -/
theorem c4_counterexample :
    (calculateCriminality c4Svc [c4Commune]).map (fun fin =>
      ((responseSlot fin "drug_usage").map (·.crimesTotal), fin.coveredPopulation)) =
      some (some 4, 2000) ∧
    (4 : ℚ) ≠ 4 * 1000 / 2000 :=
  ⟨by with_unfolding_all decide, by with_unfolding_all decide⟩

/-- C5 amended: for an accumulated crime type `k`, whenever the
department table holds a rate for the single department of highest
covered population among the touched communes,
`percentageRelativeToDepartmental = ((crimesTotal × 1000 /
totalPopulation) − deptRate) / deptRate × 100` — the reference is that
department's TABLE rate, not any population-weighted sum over all
touched departments, and there is no special-casing of
`percentageCoveredCrimes` or of a zero rate. -/
theorem c5_relative_uses_max_department (svc : CrimSvc) (communes : List CommuneDataM)
    (acc : CrimAcc) (k : String) (d : CrimeSlot) (deptCrimes : List (String × ℚ))
    (deptRate : ℚ)
    (hacc : calculateCriminalityAcc svc communes = some acc)
    (hk : alGet acc.crimeData k = some d)
    (hhas : k ∈ acc.hasData)
    (hdept : alGet svc.departmentCrimes (maxDeptCode acc.departmentData) = some deptCrimes)
    (hrate : alGet deptCrimes k = some deptRate) :
    (calculateCriminality svc communes).map
        (fun fin => (responseSlot fin k).map (·.percentageRelativeToDepartmental)) =
      some (some (((d.crimesTotal * 1000 / acc.totalPopulation - deptRate) / deptRate) * 100)) := by
  have hentry : (finalizeEntry svc acc k d).percentageRelativeToDepartmental =
      ((d.crimesTotal * 1000 / acc.totalPopulation - deptRate) / deptRate) * 100 := by
    unfold finalizeEntry
    rw [if_neg (by simpa using hhas)]
    simp only [hdept, hrate]
    by_cases h : acc.totalPopulation > 0
    · simp only [if_pos h]
    · simp only [if_neg h]
  unfold calculateCriminality
  rw [hacc]
  simp only [Option.map_some']
  congr 1
  unfold responseSlot finalizeCrim
  simp only [alGet_map_finalize, hk, Option.map_some']
  rw [if_pos hhas]
  simp only [Option.map_some']
  rw [hentry]

/-- C5 witness service: commune rate 2, department table rate 8. -/
def c5Svc : CrimSvc :=
  ⟨[("75056", [("drug_usage", 2)])], [("75", [("drug_usage", 8)])]⟩

/-- Commune of population 1000 fully inside the polygon. -/
def c5Commune : CommuneDataM :=
  { id := "0", communeCode := "75056", population := 1000, communeName := "Paris",
    postalCode := "75000", surfaceArea := 0, polygonSrc := "", percentage := 100 }

/-- The accumulator the commune loop reaches on `c5Svc`/`c5Commune`. -/
def c5Acc : CrimAcc :=
  { crimeData := [("drug_usage",
      { isTotal := true, crimesTotal := 2, percentageCoveredCrimes := 100 })],
    hasData := ["drug_usage"],
    totalPopulation := 1000,
    coveredPopulation := 1000,
    departmentData := [("75", { totalCrimes := [("drug_usage", 2)], totalPopulation := 1000 })] }

theorem c5_relative_uses_max_department_witness :
    (calculateCriminalityAcc c5Svc [c5Commune] = some c5Acc ∧
     alGet c5Acc.crimeData "drug_usage" = some ⟨true, 2, 100, 0, 0, 0, 0⟩ ∧
     "drug_usage" ∈ c5Acc.hasData ∧
     alGet c5Svc.departmentCrimes (maxDeptCode c5Acc.departmentData) =
       some [("drug_usage", 8)] ∧
     alGet [("drug_usage", (8 : ℚ))] "drug_usage" = some 8) ∧
    (calculateCriminality c5Svc [c5Commune]).map
        (fun fin => (responseSlot fin "drug_usage").map (·.percentageRelativeToDepartmental)) =
      some (some ((((⟨true, 2, 100, 0, 0, 0, 0⟩ : CrimeSlot).crimesTotal * 1000 /
        c5Acc.totalPopulation - 8) / 8) * 100)) :=
  ⟨⟨by with_unfolding_all decide, by with_unfolding_all decide,
    by with_unfolding_all decide, by with_unfolding_all decide,
    by with_unfolding_all decide⟩,
   c5_relative_uses_max_department c5Svc [c5Commune] c5Acc "drug_usage"
     ⟨true, 2, 100, 0, 0, 0, 0⟩ [("drug_usage", 8)] 8
     (by with_unfolding_all decide) (by with_unfolding_all decide)
     (by with_unfolding_all decide) (by with_unfolding_all decide)
     (by with_unfolding_all decide)⟩

/-- Following the claim's words (C5): total weighted crimes of type `k`
summed over the touched communes of each touched department and then
over all departments. -/
def specC5SumCrimes (svc : CrimSvc) (communes : List CommuneDataM) (k : String) : ℚ :=
  (communes.map (fun c =>
    match alGet svc.communeCrimes (trimLeadingZeros c.communeCode) with
    | none => 0
    | some crimes =>
      match alGet crimes k with
      | none => 0
      | some rate => rate * (c.population * c.percentage / 100) / 1000)).sum

/-- Following the claim's words (C5): population share summed across the
touched communes with crime data, then across departments. -/
def specC5SumPopulation (svc : CrimSvc) (communes : List CommuneDataM) : ℚ :=
  (communes.map (fun c =>
    match alGet svc.communeCrimes (trimLeadingZeros c.communeCode) with
    | none => 0
    | some _ => c.population * c.percentage / 100)).sum

/-- Following the claim's words (C5):
`depRate_k = sumCrimes_k × 1000 / sumPopulation`. -/
def specC5DepRate (svc : CrimSvc) (communes : List CommuneDataM) (k : String) : ℚ :=
  specC5SumCrimes svc communes k * 1000 / specC5SumPopulation svc communes

/-- Following the claim's words (C5):
`(areaRate − depRate)/depRate × 100`, `0` when `depRate = 0`. -/
def specC5Relative (svc : CrimSvc) (communes : List CommuneDataM) (k : String)
    (areaRate : ℚ) : ℚ :=
  if specC5DepRate svc communes k = 0 then 0
  else ((areaRate - specC5DepRate svc communes k) / specC5DepRate svc communes k) * 100

/-- C5 counterexample: on `c5Svc`/`c5Commune` the code emits −75 (the
max-coverage department's TABLE rate 8 against area rate 2), while the
claim's summed departmental reference gives depRate = 2 and hence 0. -/
theorem c5_counterexample :
    (calculateCriminality c5Svc [c5Commune]).map
        (fun fin => (responseSlot fin "drug_usage").map (·.percentageRelativeToDepartmental)) =
      some (some (-75)) ∧
    specC5Relative c5Svc [c5Commune] "drug_usage" 2 = 0 ∧
    ((-75 : ℚ)) ≠ 0 :=
  ⟨by with_unfolding_all decide, by with_unfolding_all decide,
   by with_unfolding_all decide⟩

theorem processCrimCommune_none_iff (svc : CrimSvc) (acc : CrimAcc) (c : CommuneDataM) :
    processCrimCommune svc acc c = none ↔
      (trimLeadingZeros c.communeCode).length < 2 := by
  unfold processCrimCommune
  by_cases h : (trimLeadingZeros c.communeCode).length < 2
  · simp [h]
  · simp [h]

theorem calculateCriminalityAcc_none (svc : CrimSvc) :
    ∀ (communes : List CommuneDataM) (acc : CrimAcc),
      (∃ c ∈ communes, (trimLeadingZeros c.communeCode).length < 2) →
      communes.foldlM (processCrimCommune svc) acc = none := by
  intro communes
  induction communes with
  | nil =>
    rintro acc ⟨c, hc, _⟩
    exact absurd hc (List.not_mem_nil c)
  | cons c t ih =>
    rintro acc ⟨c0, hc0, hbad⟩
    rw [List.foldlM_cons]
    rcases List.mem_cons.mp hc0 with rfl | hmem
    · rw [(processCrimCommune_none_iff svc acc c0).mpr hbad]
      rfl
    · cases hstep : processCrimCommune svc acc c with
      | none => rfl
      | some acc2 =>
        exact ih acc2 ⟨c0, hmem, hbad⟩

theorem calculateCriminalityAcc_some (svc : CrimSvc) :
    ∀ (communes : List CommuneDataM) (acc : CrimAcc),
      (∀ c ∈ communes, 2 ≤ (trimLeadingZeros c.communeCode).length) →
      (communes.foldlM (processCrimCommune svc) acc).isSome = true := by
  intro communes
  induction communes with
  | nil => intro acc _; rfl
  | cons c t ih =>
    intro acc hall
    rw [List.foldlM_cons]
    cases hstep : processCrimCommune svc acc c with
    | none =>
      have hbad := (processCrimCommune_none_iff svc acc c).mp hstep
      have := hall c (by simp)
      omega
    | some acc2 =>
      exact ih acc2 (fun c0 hc0 => hall c0 (by simp [hc0]))

/-- C10: the department code is the first two characters of the commune
INSEE code after stripping leading zeros; if any commune's stripped code
is shorter than 2, the slice is out of bounds and `CalculateCriminality`
panics (modelled as `none`), and under the precondition that every
stripped code has at least 2 characters the computation succeeds. -/
theorem c10_department_code_safety (svc : CrimSvc) (communes : List CommuneDataM) :
    ((∃ c ∈ communes, (trimLeadingZeros c.communeCode).length < 2) →
      calculateCriminality svc communes = none) ∧
    ((∀ c ∈ communes, 2 ≤ (trimLeadingZeros c.communeCode).length) →
      (calculateCriminality svc communes).isSome = true) := by
  constructor
  · intro hex
    unfold calculateCriminality calculateCriminalityAcc
    rw [calculateCriminalityAcc_none svc communes {} hex]
    rfl
  · intro hall
    unfold calculateCriminality calculateCriminalityAcc
    have h := calculateCriminalityAcc_some svc communes {} hall
    cases hf : communes.foldlM (processCrimCommune svc) {} with
    | none => rw [hf] at h; exact absurd h (by simp)
    | some a => rfl

/-- Empty crime tables for the C10 witness. -/
def c10Svc : CrimSvc := ⟨[], []⟩

/-- INSEE code "07": stripping the leading zero leaves "7" (length 1). -/
def c10BadCommune : CommuneDataM :=
  { id := "0", communeCode := "07", population := 0, communeName := "",
    postalCode := "", surfaceArea := 0, polygonSrc := "", percentage := 0 }

/-- INSEE code "75056": safe (length 5 after stripping). -/
def c10GoodCommune : CommuneDataM :=
  { id := "0", communeCode := "75056", population := 0, communeName := "",
    postalCode := "", surfaceArea := 0, polygonSrc := "", percentage := 0 }

theorem c10_department_code_safety_witness :
    calculateCriminality c10Svc [c10BadCommune] = none ∧
    (calculateCriminality c10Svc [c10GoodCommune]).isSome = true :=
  ⟨(c10_department_code_safety c10Svc [c10BadCommune]).1 (by decide),
   (c10_department_code_safety c10Svc [c10GoodCommune]).2 (by decide)⟩

end CsvProc
